import Mathlib

/-!
Shallow embedding of the S3 reconciliation scripts
(`s3_sync.py`, `config_manager.py`) of the ClamAV mirror repository.

Timestamps are modelled as integers (seconds since epoch), file paths and
object keys as strings.  The remote object store and the local filesystem
are modelled as explicit environments passed to each function; fallible
SDK calls are modelled by result inductives recording the outcomes the
code distinguishes.
-/

namespace S3Sync

/-- Direction of a planned transfer. -/
inductive Direction where
  | up
  | down
deriving DecidableEq, Repr

/-- Outcome of an `s3_client.head_object` call as the code distinguishes
them: success with a last-modified timestamp, a 404 `ClientError`, or any
other `ClientError`. -/
inductive HeadResult where
  | found (ts : Int)
  | notFound
  | err
deriving DecidableEq, Repr

/-- A local candidate file, as produced by `get_local_files`: its name, a
flag recording whether its parent directory is `.cvdupdate` (the two
auxiliary `state.json` / `config.json` files), and its `st_mtime`. -/
structure LocalFile where
  name : String
  inCvdupdateParent : Bool
  mtime : Int
deriving DecidableEq, Repr

/-- Python `s.lstrip('/')`. -/
def lstripSlash (s : String) : String :=
  String.mk (s.data.dropWhile (fun c => c = '/'))

/-- Python `s.rstrip('/')`. -/
def rstripSlash (s : String) : String :=
  String.mk ((s.data.reverse.dropWhile (fun c => c = '/')).reverse)

/-- Python `s.replace('//', '/')` on a character list: scan left to
right, replacing each non-overlapping occurrence of `//` by `/`. -/
def collapseDoubleSlash : List Char → List Char
  | '/' :: '/' :: rest => '/' :: collapseDoubleSlash rest
  | c :: rest => c :: collapseDoubleSlash rest
  | [] => []

/-- S3 key computed by `upload_to_s3` (lines 146-151): the file name, put
under `metadata/` when the file sits in `.cvdupdate` itself, prefixed and
with `'//'` collapsed by `str.replace`. -/
def s3Key (pfx : String) (f : LocalFile) : String :=
  let rel := if f.inCvdupdateParent then "metadata/" ++ f.name else f.name
  String.mk (collapseDoubleSlash (pfx ++ rel).data)

/-- The per-file upload decision of `upload_to_s3` (lines 153-175):
`should_upload` starts as `force`; when not forced, `head_object` is
consulted: a timestamp gives `local_modified > s3_modified`, a 404 gives
`True`, and any other `ClientError` is re-raised and caught by the outer
handler, so the file is neither logged as a transfer nor counted. -/
def shouldUpload (head : String → HeadResult) (force : Bool) (mtime : Int)
    (key : String) : Bool :=
  if force then true
  else
    match head key with
    | HeadResult.found ts => decide (mtime > ts)
    | HeadResult.notFound => true
    | HeadResult.err => false

/-- Environment seen by `upload_to_s3`: the behaviour of `head_object`
per key, and whether `upload_file` raises a `ClientError` for a key. -/
structure UploadEnv where
  head : String → HeadResult
  uploadFails : String → Bool

/-- The loop of `upload_to_s3` (lines 145-186): returns the list of
per-file transfer decisions (the files for which the `Uploading:` /
`[DRY RUN] Would upload:` line is emitted, with their keys), and the
final `success_count`.  In a real run a failing `upload_file` is caught
and the loop continues with the next file; the failed file is not
counted. -/
def uploadRun (env : UploadEnv) (pfx : String) (force dryRun : Bool) :
    List LocalFile → List (String × Direction) × Nat
  | [] => ([], 0)
  | f :: rest =>
    let key := s3Key pfx f
    let r := uploadRun env pfx force dryRun rest
    if shouldUpload env.head force f.mtime key then
      let counted : Nat :=
        if dryRun then 1 else (if env.uploadFails key then 0 else 1)
      ((key, Direction.up) :: r.1, counted + r.2)
    else r

/-- Return value of `upload_to_s3` (lines 138-140, 193): `True` on an
empty candidate list, else `success_count == total_files`. -/
def upload_to_s3 (env : UploadEnv) (pfx : String) (force dryRun : Bool)
    (files : List LocalFile) : Bool :=
  (uploadRun env pfx force dryRun files).2 == files.length

/-- `sys.exit(0 if success else 1)` in `main` (line 361). -/
def exitCode (success : Bool) : Nat :=
  if success then 0 else 1

/-- A remote store as a map from keys to last-modified timestamps; the
`head_object` behaviour it induces (present gives the timestamp, absent
gives a 404). -/
def headOfStore (store : String → Option Int) : String → HeadResult :=
  fun k =>
    match store k with
    | some ts => HeadResult.found ts
    | none => HeadResult.notFound

/-- A local destination path as computed by `download_from_s3`: either
under the database directory or (for `metadata/` keys) under its parent
directory. -/
inductive LocalPath where
  | inDb (rel : String)
  | inParent (rel : String)
deriving DecidableEq, Repr

/-- Local path computation of `download_from_s3` (lines 211-218):
`relative_path = s3_key[len(prefix):].lstrip('/')`; keys starting with
`metadata/` map to the parent directory with that prefix removed. -/
def localPathFor (pfx key : String) : LocalPath :=
  let rel := lstripSlash (String.mk (key.data.drop pfx.length))
  if "metadata/".data.isPrefixOf rel.data then
    LocalPath.inParent (String.mk (rel.data.drop 9))
  else
    LocalPath.inDb rel

/-- The per-object download decision of `download_from_s3` (lines
220-230): `should_download` starts as `force`; only when not forced and
the local file exists is the timestamp comparison
`s3_modified > local_modified` made.  When the local file does not exist
and `force` is false, `should_download` keeps its initial value `False`
and the object is not transferred. -/
def shouldDownload (force : Bool) (localTs : Option Int) (remoteTs : Int) :
    Bool :=
  if force then true
  else
    match localTs with
    | some lt => decide (remoteTs > lt)
    | none => false

/-- Environment seen by `download_from_s3`: the result of
`list_objects_v2` (`none` models a `ClientError` from the call, a list
models the `Contents` with their timestamps), the local filesystem as a
partial map from paths to mtimes, and whether `download_file` raises a
`ClientError` for a key. -/
structure DownloadEnv where
  listing : Option (List (String × Int))
  localMtime : LocalPath → Option Int
  downloadFails : String → Bool

/-- The loop of `download_from_s3` (lines 210-240): returns the list of
per-object transfer decisions (objects for which the `Downloading:` /
`[DRY RUN] Would download:` line is emitted), the final `success_count`,
and whether the loop ran to completion.  The whole loop sits inside the
single `try` of the function, so in a real run a `ClientError` raised by
`download_file` aborts the remaining iterations. -/
def downloadLoop (env : DownloadEnv) (pfx : String) (force dryRun : Bool) :
    List (String × Int) → List (String × Direction) × Nat × Bool
  | [] => ([], 0, true)
  | (key, ts) :: rest =>
    if shouldDownload force (env.localMtime (localPathFor pfx key)) ts then
      if !dryRun && env.downloadFails key then
        ([(key, Direction.down)], 0, false)
      else
        let r := downloadLoop env pfx force dryRun rest
        ((key, Direction.down) :: r.1, r.2.1 + 1, r.2.2)
    else downloadLoop env pfx force dryRun rest

/-- Return value of `download_from_s3` (lines 196-251): `False` when
`list_objects_v2` raises, `True` when the listing has no `Contents`,
otherwise `True` unless an exception aborted the loop (in which case the
outer `except ClientError` returns `False`). -/
def download_from_s3 (env : DownloadEnv) (pfx : String)
    (force dryRun : Bool) : Bool :=
  match env.listing with
  | none => false
  | some [] => true
  | some objs => (downloadLoop env pfx force dryRun objs).2.2

/-- The decisions reported by `download_from_s3`: empty when the listing
call fails or is empty, otherwise those of the loop. -/
def downloadDecisions (env : DownloadEnv) (pfx : String)
    (force dryRun : Bool) : List (String × Direction) :=
  match env.listing with
  | none => []
  | some objs => (downloadLoop env pfx force dryRun objs).1

/-- Outcome of a remote SDK call as `test_s3_connection` distinguishes
them: success, a `ClientError` with code `AccessDenied`, or any other
`ClientError`. -/
inductive CallResult where
  | ok
  | accessDenied
  | otherErr
deriving DecidableEq, Repr

/-- Environment seen by `test_s3_connection`: outcomes of `head_bucket`
and of `list_objects_v2`. -/
structure TestEnv where
  headBucket : CallResult
  listObjects : CallResult

/-- `test_s3_connection` (lines 254-279): a failing `head_bucket` is
caught by the outer handler and the test returns `False`; with the bucket
reachable, an `AccessDenied` from `list_objects_v2` is only a warning and
the test still returns `True`; any other `ClientError` from the listing
is re-raised, caught by the outer handler, and the test returns `False`. -/
def test_s3_connection (env : TestEnv) : Bool :=
  match env.headBucket with
  | CallResult.ok =>
    match env.listObjects with
    | CallResult.ok => true
    | CallResult.accessDenied => true
    | CallResult.otherErr => false
  | _ => false

/-- The S3 configuration record of `load_s3_config`. -/
structure S3Config where
  bucket : Option String
  region : String
  pfx : String
  syncEnabled : Bool
deriving DecidableEq, Repr

/-- State of the `s3_config.json` file: missing, unparseable JSON, or a
parsed configuration. -/
inductive ConfigFile where
  | missing
  | invalid
  | valid (cfg : S3Config)
deriving DecidableEq, Repr

/-- `load_s3_config` (lines 32-67): when the `S3_BUCKET_NAME` environment
variable is set it wins, with region `S3_REGION or 'us-east-1'`; only
otherwise is the config file consulted, falling back to defaults when it
is missing or unparseable. -/
def load_s3_config (envBucket envRegion : Option String)
    (file : ConfigFile) : S3Config :=
  match envBucket with
  | some b =>
    { bucket := some b
      region := envRegion.getD "us-east-1"
      pfx := "clamav/databases/"
      syncEnabled := true }
  | none =>
    match file with
    | ConfigFile.valid cfg => cfg
    | _ =>
      { bucket := none
        region := "us-east-1"
        pfx := "clamav/databases/"
        syncEnabled := false }

/-- The prefix setter in `config_manager.py` (lines 251-262): the stored
value is `prefix.rstrip('/') + '/' if prefix else ''`. -/
def set_s3_pfx (p : String) : String :=
  if p = "" then "" else rstripSlash p ++ "/"

/-- The stored prefix ends with exactly one trailing slash: its last
character is `'/'` and the character before, if any, is not. -/
def endsWithOneSlash (s : String) : Bool :=
  match s.data.reverse with
  | '/' :: rest => rest.head? ≠ some '/'
  | _ => false

/-! Concrete environments used to instantiate theorems with hypotheses. -/

/-- A one-object remote store holding `clamav/databases/daily.cvd`. -/
def storeOne : String → Option Int :=
  fun k => if k = "clamav/databases/daily.cvd" then some 5 else none

/-- The candidate file `daily.cvd` with mtime 10. -/
def dailyFile : LocalFile :=
  { name := "daily.cvd", inCvdupdateParent := false, mtime := 10 }

/-- A download environment with one remote object and an empty local
directory, every transfer succeeding. -/
def denvOne : DownloadEnv :=
  ⟨some [("clamav/databases/daily.cvd", 100)], fun _ => none, fun _ => false⟩

/-- A download environment with two remote objects in which the copy of
the first raises a `ClientError`. -/
def denvAbort : DownloadEnv :=
  ⟨some [("p/a", 10), ("p/b", 10)], fun _ => none, fun k => k == "p/a"⟩

/-- The candidate file `daily.cvd` with mtime 3, older than its remote
copy in `storeOne`. -/
def staleDaily : LocalFile :=
  { name := "daily.cvd", inCvdupdateParent := false, mtime := 3 }

/-- Pre-transfer remote store for the C6 witness: empty. -/
def storeEmpty : String → Option Int := fun _ => none

/-- Post-transfer remote store for the C6 witness: `daily.cvd` uploaded
at timestamp 10. -/
def storeAfterUpload : String → Option Int :=
  fun k => if k = "clamav/databases/daily.cvd" then some 10 else none

/-- Pre-transfer local filesystem for the C6 witness: `main.cvd` at
mtime 200, older than the remote copy. -/
def localBefore : LocalPath → Option Int :=
  fun p => if p = LocalPath.inDb "main.cvd" then some 200 else none

/-- Post-transfer local filesystem for the C6 witness: `main.cvd`
downloaded at timestamp 500. -/
def localAfter : LocalPath → Option Int :=
  fun p => if p = LocalPath.inDb "main.cvd" then some 500 else none

/-- A download environment whose `list_objects_v2` call raises a
`ClientError`. -/
def denvNoList : DownloadEnv := ⟨none, fun _ => none, fun _ => false⟩

/-- An upload environment whose `head_object` calls all raise a non-404
`ClientError`. -/
def uenvErr : UploadEnv := ⟨fun _ => HeadResult.err, fun _ => false⟩

end S3Sync

namespace S3Sync

/-- The decision list of the upload loop is the decided files, in order,
with their keys. -/
theorem uploadRun_fst (env : UploadEnv) (pfx : String) (force dryRun : Bool)
    (files : List LocalFile) :
    (uploadRun env pfx force dryRun files).1 =
      (files.filter
        (fun f => shouldUpload env.head force f.mtime (s3Key pfx f))).map
        (fun f => (s3Key pfx f, Direction.up)) := by
  induction files with
  | nil => rfl
  | cons f rest ih =>
    cases h : shouldUpload env.head force f.mtime (s3Key pfx f) <;>
      simp [uploadRun, List.filter_cons, h, ih]

/-- The `success_count` of the upload loop counts the decided files whose
transfer is not skipped by a failing `upload_file` (in a dry run every
decided file counts). -/
theorem uploadRun_snd (env : UploadEnv) (pfx : String) (force dryRun : Bool)
    (files : List LocalFile) :
    (uploadRun env pfx force dryRun files).2 =
      (files.filter
        (fun f => shouldUpload env.head force f.mtime (s3Key pfx f) &&
          (dryRun || !env.uploadFails (s3Key pfx f)))).length := by
  induction files with
  | nil => rfl
  | cons f rest ih =>
    cases h : shouldUpload env.head force f.mtime (s3Key pfx f)
    · simp [uploadRun, List.filter_cons, h, ih]
    · cases dryRun <;> cases hf : env.uploadFails (s3Key pfx f) <;>
        simp [uploadRun, List.filter_cons, h, hf, ih] <;> omega

/-- C1: for every local candidate file, with the remote store modelled
as a key-to-timestamp map, the upload plan contains the file's key iff
the force flag is set, or the key is absent remotely, or the local mtime
is strictly greater than the remote timestamp; consequently with
`force=false` a file whose remote copy has a greater-or-equal timestamp
is never in the plan. -/
theorem upload_plan_mem_iff (store : String → Option Int)
    (fails : String → Bool) (pfx : String) (force dryRun : Bool)
    (files : List LocalFile) (hnd : (files.map (s3Key pfx)).Nodup)
    (f : LocalFile) (hf : f ∈ files) :
    ((s3Key pfx f, Direction.up) ∈
        (uploadRun ⟨headOfStore store, fails⟩ pfx force dryRun files).1 ↔
      (force = true ∨ store (s3Key pfx f) = none ∨
        ∃ ts, store (s3Key pfx f) = some ts ∧ f.mtime > ts)) ∧
    (force = false → ∀ ts, store (s3Key pfx f) = some ts → f.mtime ≤ ts →
      (s3Key pfx f, Direction.up) ∉
        (uploadRun ⟨headOfStore store, fails⟩ pfx force dryRun files).1) := by
  have hmem : (s3Key pfx f, Direction.up) ∈
      (uploadRun ⟨headOfStore store, fails⟩ pfx force dryRun files).1 ↔
      shouldUpload (headOfStore store) force f.mtime (s3Key pfx f) = true := by
    rw [uploadRun_fst]
    constructor
    · intro h
      obtain ⟨g, hg, hkey⟩ := List.mem_map.1 h
      obtain ⟨hgmem, hgdec⟩ := List.mem_filter.1 hg
      have hk : s3Key pfx g = s3Key pfx f := congrArg Prod.fst hkey
      have hgf : g = f := List.inj_on_of_nodup_map hnd hgmem hf hk
      rw [← hgf]
      exact hgdec
    · intro h
      exact List.mem_map.2 ⟨f, List.mem_filter.2 ⟨hf, h⟩, rfl⟩
  constructor
  · rw [hmem]
    unfold shouldUpload headOfStore
    cases force
    · cases hst : store (s3Key pfx f) <;> simp [hst, Int.lt_iff_add_one_le]
    · simp
  · intro hforce ts hts hle
    rw [hmem, hforce]
    unfold shouldUpload headOfStore
    rw [hts]
    simpa using hle

/-- Witness for C1 at a concrete input: `daily.cvd` (mtime 10) against a
store holding its key at timestamp 5. -/
theorem upload_plan_mem_iff_witness :
    ((s3Key "clamav/databases/" dailyFile, Direction.up) ∈
        (uploadRun ⟨headOfStore storeOne, fun _ => false⟩ "clamav/databases/"
          false false [dailyFile]).1 ↔
      (false = true ∨ storeOne (s3Key "clamav/databases/" dailyFile) = none ∨
        ∃ ts, storeOne (s3Key "clamav/databases/" dailyFile) = some ts ∧
          dailyFile.mtime > ts)) ∧
    (false = false → ∀ ts,
      storeOne (s3Key "clamav/databases/" dailyFile) = some ts →
      dailyFile.mtime ≤ ts →
      (s3Key "clamav/databases/" dailyFile, Direction.up) ∉
        (uploadRun ⟨headOfStore storeOne, fun _ => false⟩ "clamav/databases/"
          false false [dailyFile]).1) :=
  upload_plan_mem_iff storeOne (fun _ => false) "clamav/databases/"
    false false [dailyFile] (by decide) dailyFile (by decide)

/-- C2: evaluation of the download decision at the failing input: with
`force=false`, a remote object whose local file is absent is NOT
selected for download (`should_download` keeps its initial value
`False`), so the download plan for a store holding one object and an
empty local directory is empty. -/
theorem download_missing_local_skipped :
    shouldDownload false none 100 = false ∧
    downloadDecisions
      ⟨some [("clamav/databases/daily.cvd", 100)], fun _ => none,
        fun _ => false⟩ "clamav/databases/" false false = [] ∧
    download_from_s3
      ⟨some [("clamav/databases/daily.cvd", 100)], fun _ => none,
        fun _ => false⟩ "clamav/databases/" false false = true := by
  constructor
  · rfl
  · constructor <;> rfl

/-- With no failing `download_file`, the download loop visits every
object: its decisions are the decided objects in order, all of them are
counted, and the loop runs to completion. -/
theorem downloadLoop_noFail (env : DownloadEnv) (pfx : String)
    (force dryRun : Bool) (objs : List (String × Int))
    (h : ∀ k, env.downloadFails k = false) :
    downloadLoop env pfx force dryRun objs =
      ((objs.filter (fun o =>
          shouldDownload force (env.localMtime (localPathFor pfx o.1)) o.2)).map
          (fun o => (o.1, Direction.down)),
        (objs.filter (fun o =>
          shouldDownload force
            (env.localMtime (localPathFor pfx o.1)) o.2)).length,
        true) := by
  induction objs with
  | nil => rfl
  | cons o rest ih =>
    obtain ⟨key, ts⟩ := o
    cases hd : shouldDownload force (env.localMtime (localPathFor pfx key)) ts <;>
      simp [downloadLoop, List.filter_cons, hd, h, ih]

/-- A key decided for download whose `download_file` raises, preceded by
decided objects that all transfer cleanly, aborts the loop: everything up
to and including the failing key is decided, the count stops at the
clean ones, and the completion flag is false. -/
theorem downloadLoop_abort (env : DownloadEnv) (pfx : String) (force : Bool)
    (objs1 objs2 : List (String × Int)) (k : String) (ts : Int)
    (h1 : ∀ o ∈ objs1,
      shouldDownload force (env.localMtime (localPathFor pfx o.1)) o.2 = true →
      env.downloadFails o.1 = false)
    (h2 : shouldDownload force (env.localMtime (localPathFor pfx k)) ts = true)
    (h3 : env.downloadFails k = true) :
    downloadLoop env pfx force false (objs1 ++ (k, ts) :: objs2) =
      ((objs1.filter (fun o =>
          shouldDownload force (env.localMtime (localPathFor pfx o.1)) o.2)).map
          (fun o => (o.1, Direction.down)) ++ [(k, Direction.down)],
        (objs1.filter (fun o =>
          shouldDownload force
            (env.localMtime (localPathFor pfx o.1)) o.2)).length,
        false) := by
  induction objs1 with
  | nil => simp [downloadLoop, h2, h3]
  | cons o rest ih =>
    obtain ⟨k1, t1⟩ := o
    have hrest : ∀ o ∈ rest,
        shouldDownload force (env.localMtime (localPathFor pfx o.1)) o.2 = true →
        env.downloadFails o.1 = false :=
      fun o ho => h1 o (List.mem_cons_of_mem _ ho)
    cases hd : shouldDownload force (env.localMtime (localPathFor pfx k1)) t1
    · simp [downloadLoop, List.filter_cons, hd, ih hrest]
    · have hok : env.downloadFails k1 = false :=
        h1 (k1, t1) (List.mem_cons_self _ _) hd
      simp [downloadLoop, List.filter_cons, hd, hok, ih hrest]

/-- For a listing with at least one object, the return value of
`download_from_s3` is the completion flag of the loop. -/
theorem download_from_s3_eq_loop (env : DownloadEnv) (pfx : String)
    (force dryRun : Bool) (l : List (String × Int))
    (hl : env.listing = some l) (hne : l ≠ []) :
    download_from_s3 env pfx force dryRun =
      (downloadLoop env pfx force dryRun l).2.2 := by
  unfold download_from_s3
  rw [hl]
  cases l with
  | nil => exact absurd rfl hne
  | cons o rest => rfl

/-- C3: the per-file decision logic never reads the dry-run flag: over
the same environment, the upload decision list computed in dry-run mode
equals the one computed in real mode, and — when every planned copy
executes without a client error — so does the download decision list. -/
theorem dry_run_plan_eq (uenv : UploadEnv) (pfx : String) (force : Bool)
    (files : List LocalFile) (denv : DownloadEnv) (pfx2 : String)
    (force2 : Bool) (hnf : ∀ k, denv.downloadFails k = false) :
    (uploadRun uenv pfx force true files).1 =
      (uploadRun uenv pfx force false files).1 ∧
    downloadDecisions denv pfx2 force2 true =
      downloadDecisions denv pfx2 force2 false := by
  constructor
  · rw [uploadRun_fst, uploadRun_fst]
  · unfold downloadDecisions
    cases hl : denv.listing with
    | none => rfl
    | some objs =>
      show (downloadLoop denv pfx2 force2 true objs).1 =
        (downloadLoop denv pfx2 force2 false objs).1
      rw [downloadLoop_noFail _ _ _ _ _ hnf, downloadLoop_noFail _ _ _ _ _ hnf]

/-- Witness for C3 at a concrete input. -/
theorem dry_run_plan_eq_witness :
    (uploadRun ⟨headOfStore storeOne, fun _ => false⟩ "clamav/databases/"
        false true [dailyFile]).1 =
      (uploadRun ⟨headOfStore storeOne, fun _ => false⟩ "clamav/databases/"
        false false [dailyFile]).1 ∧
    downloadDecisions denvOne "clamav/databases/" false true =
      downloadDecisions denvOne "clamav/databases/" false false :=
  dry_run_plan_eq ⟨headOfStore storeOne, fun _ => false⟩ "clamav/databases/"
    false [dailyFile] denvOne "clamav/databases/" false (fun _ => rfl)

/-- C4 counterexample: in the download batch a single failing transfer
does stop the remaining transfers.  Both objects are planned (forced),
the first copy raises, and the second — although selected by the
decision logic — is never attempted: it is absent from the emitted
decisions and the whole batch returns failure. -/
theorem download_batch_abort_cex :
    shouldDownload true (denvAbort.localMtime (localPathFor "p/" "p/b")) 10 =
      true ∧
    (downloadLoop denvAbort "p/" true false [("p/a", 10), ("p/b", 10)]).1 =
      [("p/a", Direction.down)] ∧
    ("p/b", Direction.down) ∉
      (downloadLoop denvAbort "p/" true false [("p/a", 10), ("p/b", 10)]).1 ∧
    download_from_s3 denvAbort "p/" true false = false := by
  decide

/-- C4 amended: the two batches differ.  The upload loop catches a
per-file failure and goes on — its decision list does not depend on
which uploads fail, and it reports how many of the N files succeeded —
whereas in the download loop the first failing copy aborts the batch:
the function returns failure and no object after the failing one is
processed. -/
theorem batch_failure_semantics (uenv : UploadEnv) (fails2 : String → Bool)
    (pfx : String) (force : Bool) (files : List LocalFile)
    (denv : DownloadEnv) (pfx2 : String) (force2 : Bool)
    (objs1 objs2 : List (String × Int)) (k : String) (ts : Int)
    (hl : denv.listing = some (objs1 ++ (k, ts) :: objs2))
    (h1 : ∀ o ∈ objs1,
      shouldDownload force2 (denv.localMtime (localPathFor pfx2 o.1)) o.2 =
        true →
      denv.downloadFails o.1 = false)
    (h2 : shouldDownload force2 (denv.localMtime (localPathFor pfx2 k)) ts =
      true)
    (h3 : denv.downloadFails k = true) :
    (uploadRun uenv pfx force false files).1 =
      (uploadRun ⟨uenv.head, fails2⟩ pfx force false files).1 ∧
    (uploadRun uenv pfx force false files).2 =
      (files.filter (fun f =>
        shouldUpload uenv.head force f.mtime (s3Key pfx f) &&
          !uenv.uploadFails (s3Key pfx f))).length ∧
    (downloadLoop denv pfx2 force2 false (objs1 ++ (k, ts) :: objs2)).1 =
      (objs1.filter (fun o =>
        shouldDownload force2 (denv.localMtime (localPathFor pfx2 o.1)) o.2)).map
        (fun o => (o.1, Direction.down)) ++ [(k, Direction.down)] ∧
    download_from_s3 denv pfx2 force2 false = false := by
  refine ⟨?_, ?_, ?_, ?_⟩
  · rw [uploadRun_fst, uploadRun_fst]
  · simpa using uploadRun_snd uenv pfx force false files
  · rw [downloadLoop_abort denv pfx2 force2 objs1 objs2 k ts h1 h2 h3]
  · rw [download_from_s3_eq_loop denv pfx2 force2 false _ hl (by simp),
      downloadLoop_abort denv pfx2 force2 objs1 objs2 k ts h1 h2 h3]

/-- A list keeping an element on which the predicate is false is shorter
after filtering. -/
theorem length_filter_lt_of_mem {α : Type} (p : α → Bool) (l : List α)
    (x : α) (hx : x ∈ l) (hpx : p x = false) :
    (l.filter p).length < l.length := by
  induction l with
  | nil => cases hx
  | cons a rest ih =>
    cases hpa : p a
    · rw [List.filter_cons, hpa]
      simp only [Bool.false_eq_true, if_false, List.length_cons]
      exact Nat.lt_succ_of_le (List.length_filter_le _ _)
    · have hxr : x ∈ rest := by
        rcases List.mem_cons.1 hx with h | h
        · subst h; rw [hpa] at hpx; cases hpx
        · exact h
      rw [List.filter_cons, hpa]
      simpa using Nat.succ_lt_succ (ih hxr)

/-- C5: `upload_to_s3` returns success exactly when the number of files
counted as transferred equals the number of candidates; a file skipped
because the remote copy is newer or equal is not counted, so a
non-forced run with an up-to-date file returns `False` and exits with
code 1, even though no transfer failed. -/
theorem upload_success_iff (env : UploadEnv) (pfx : String)
    (force dryRun : Bool) (files : List LocalFile) (f : LocalFile) (ts : Int)
    (hforce : force = false) (hf : f ∈ files)
    (hhead : env.head (s3Key pfx f) = HeadResult.found ts)
    (hle : f.mtime ≤ ts) (hnofail : ∀ k, env.uploadFails k = false) :
    (upload_to_s3 env pfx force dryRun files = true ↔
      (uploadRun env pfx force dryRun files).2 = files.length) ∧
    upload_to_s3 env pfx force dryRun files = false ∧
    exitCode (upload_to_s3 env pfx force dryRun files) = 1 := by
  have hiff : upload_to_s3 env pfx force dryRun files = true ↔
      (uploadRun env pfx force dryRun files).2 = files.length := by
    simp [upload_to_s3]
  have hpred : (shouldUpload env.head force f.mtime (s3Key pfx f) &&
      (dryRun || !env.uploadFails (s3Key pfx f))) = false := by
    have : shouldUpload env.head force f.mtime (s3Key pfx f) = false := by
      rw [hforce]
      unfold shouldUpload
      rw [hhead]
      simpa using hle
    rw [this, Bool.false_and]
  have hlt : (uploadRun env pfx force dryRun files).2 < files.length := by
    rw [uploadRun_snd]
    exact length_filter_lt_of_mem _ files f hf hpred
  have hfalse : upload_to_s3 env pfx force dryRun files = false := by
    unfold upload_to_s3
    exact beq_false_of_ne (Nat.ne_of_lt hlt)
  exact ⟨hiff, hfalse, by rw [hfalse]; rfl⟩

/-- Witness for C5 at a concrete input: one candidate whose remote copy
(timestamp 5) is newer than the local file (mtime 3). -/
theorem upload_success_iff_witness :
    (upload_to_s3 ⟨headOfStore storeOne, fun _ => false⟩ "clamav/databases/"
        false false [staleDaily] = true ↔
      (uploadRun ⟨headOfStore storeOne, fun _ => false⟩ "clamav/databases/"
        false false [staleDaily]).2 = [staleDaily].length) ∧
    upload_to_s3 ⟨headOfStore storeOne, fun _ => false⟩ "clamav/databases/"
      false false [staleDaily] = false ∧
    exitCode (upload_to_s3 ⟨headOfStore storeOne, fun _ => false⟩
      "clamav/databases/" false false [staleDaily]) = 1 :=
  upload_success_iff ⟨headOfStore storeOne, fun _ => false⟩
    "clamav/databases/" false false [staleDaily] staleDaily 5 rfl
    (by decide) (by decide) (by decide) (fun _ => rfl)

/-- When no object is selected, the download loop emits no decision,
counts nothing, and completes. -/
theorem downloadLoop_none (env : DownloadEnv) (pfx : String)
    (force dryRun : Bool) (objs : List (String × Int))
    (h : ∀ o ∈ objs,
      shouldDownload force (env.localMtime (localPathFor pfx o.1)) o.2 =
        false) :
    downloadLoop env pfx force dryRun objs = ([], 0, true) := by
  induction objs with
  | nil => rfl
  | cons o rest ih =>
    obtain ⟨key, ts⟩ := o
    have hd := h (key, ts) (List.mem_cons_self _ _)
    rw [downloadLoop]
    simp only at hd
    rw [hd]
    simp only [Bool.false_eq_true, if_false]
    exact ih (fun o ho => h o (List.mem_cons_of_mem _ ho))

/-- C6: idempotence of reconciliation.  If after a run every transferred
file's destination carries a timestamp at least the source's and every
skipped file's destination is unchanged, then re-planning in the same
direction with `force=false` against the post-transfer state selects
nothing: the upload decision list and the download decision list are
both empty. -/
theorem replan_after_sync_empty (store store2 : String → Option Int)
    (fails : String → Bool) (pfx : String) (files : List LocalFile)
    (force1 : Bool)
    (hup : ∀ f ∈ files,
      shouldUpload (headOfStore store) force1 f.mtime (s3Key pfx f) = true →
      ∃ t, store2 (s3Key pfx f) = some t ∧ f.mtime ≤ t)
    (hskip : ∀ f ∈ files,
      shouldUpload (headOfStore store) force1 f.mtime (s3Key pfx f) = false →
      store2 (s3Key pfx f) = store (s3Key pfx f))
    (localM localM2 : LocalPath → Option Int) (objs : List (String × Int))
    (pfx2 : String) (force2 : Bool) (dfails : String → Bool)
    (hdown : ∀ o ∈ objs,
      shouldDownload force2 (localM (localPathFor pfx2 o.1)) o.2 = true →
      ∃ t, localM2 (localPathFor pfx2 o.1) = some t ∧ o.2 ≤ t)
    (hdskip : ∀ o ∈ objs,
      shouldDownload force2 (localM (localPathFor pfx2 o.1)) o.2 = false →
      localM2 (localPathFor pfx2 o.1) = localM (localPathFor pfx2 o.1))
    (dryRun dryRun2 : Bool) :
    (uploadRun ⟨headOfStore store2, fails⟩ pfx false dryRun files).1 = [] ∧
    downloadDecisions ⟨some objs, localM2, dfails⟩ pfx2 false dryRun2 = [] := by
  constructor
  · rw [uploadRun_fst]
    rw [List.map_eq_nil_iff]
    rw [List.filter_eq_nil_iff]
    intro f hf
    simp only [Bool.not_eq_true]
    by_cases hdec :
        shouldUpload (headOfStore store) force1 f.mtime (s3Key pfx f) = true
    · obtain ⟨t, ht, hlet⟩ := hup f hf hdec
      unfold shouldUpload headOfStore
      rw [ht]
      simpa using hlet
    · have hfalse :
          shouldUpload (headOfStore store) force1 f.mtime (s3Key pfx f) =
            false := by simpa using hdec
      have hstore := hskip f hf hfalse
      unfold shouldUpload headOfStore at hfalse ⊢
      cases force1
      · cases hstk : store (s3Key pfx f) with
        | none => rw [hstk] at hfalse; simp at hfalse
        | some ts =>
          rw [hstk] at hfalse
          rw [hstore, hstk]
          simp only [if_false, Bool.false_eq_true] at hfalse ⊢
          simp only [decide_eq_false_iff_not] at hfalse ⊢
          exact hfalse
      · simp at hfalse
  · show (downloadLoop ⟨some objs, localM2, dfails⟩ pfx2 false dryRun2 objs).1 = []
    rw [downloadLoop_none]
    intro o ho
    by_cases hdec :
        shouldDownload force2 (localM (localPathFor pfx2 o.1)) o.2 = true
    · obtain ⟨t, ht, hlet⟩ := hdown o ho hdec
      unfold shouldDownload
      show (match localM2 (localPathFor pfx2 o.1) with
        | some lt => decide (o.2 > lt)
        | none => false) = false
      rw [ht]
      simpa using hlet
    · have hfalse :
          shouldDownload force2 (localM (localPathFor pfx2 o.1)) o.2 =
            false := by simpa using hdec
      have hlocal := hdskip o ho hfalse
      unfold shouldDownload at hfalse ⊢
      cases force2
      · simp only [if_false, Bool.false_eq_true] at hfalse ⊢
        rw [hlocal]
        exact hfalse
      · simp at hfalse

/-- Witness for C6 at a concrete input: `daily.cvd` uploaded into an
empty store, `main.cvd` (remote ts 500, local mtime 200) downloaded;
both re-plans are empty. -/
theorem replan_after_sync_empty_witness :
    (uploadRun ⟨headOfStore storeAfterUpload, fun _ => false⟩
      "clamav/databases/" false false [dailyFile]).1 = [] ∧
    downloadDecisions ⟨some [("clamav/databases/main.cvd", 500)], localAfter,
      fun _ => false⟩ "clamav/databases/" false false = [] :=
  replan_after_sync_empty storeEmpty storeAfterUpload (fun _ => false)
    "clamav/databases/" [dailyFile] false
    (by
      intro f hf hdec
      rw [List.mem_singleton] at hf
      subst hf
      exact ⟨10, by decide, by decide⟩)
    (by
      intro f hf hdec
      rw [List.mem_singleton] at hf
      subst hf
      exact absurd hdec (by decide))
    localBefore localAfter [("clamav/databases/main.cvd", 500)]
    "clamav/databases/" false (fun _ => false)
    (by
      intro o ho hdec
      rw [List.mem_singleton] at ho
      subst ho
      exact ⟨500, by decide, by decide⟩)
    (by
      intro o ho hdec
      rw [List.mem_singleton] at ho
      subst ho
      exact absurd hdec (by decide))
    false false

/-- Witness for the amended C4 at a concrete input. -/
theorem batch_failure_semantics_witness :
    (uploadRun ⟨headOfStore storeOne, fun _ => false⟩ "clamav/databases/"
        false false [dailyFile]).1 =
      (uploadRun ⟨headOfStore storeOne, fun _ => true⟩ "clamav/databases/"
        false false [dailyFile]).1 ∧
    (uploadRun ⟨headOfStore storeOne, fun _ => false⟩ "clamav/databases/"
        false false [dailyFile]).2 =
      ([dailyFile].filter (fun f =>
        shouldUpload (headOfStore storeOne) false f.mtime
            (s3Key "clamav/databases/" f) &&
          !(fun _ => false) (s3Key "clamav/databases/" f))).length ∧
    (downloadLoop denvAbort "p/" true false
        ([] ++ ("p/a", (10 : Int)) :: [("p/b", 10)])).1 =
      (([] : List (String × Int)).filter (fun o =>
        shouldDownload true (denvAbort.localMtime (localPathFor "p/" o.1)) o.2)).map
        (fun o => (o.1, Direction.down)) ++ [("p/a", Direction.down)] ∧
    download_from_s3 denvAbort "p/" true false = false :=
  batch_failure_semantics ⟨headOfStore storeOne, fun _ => false⟩
    (fun _ => true) "clamav/databases/" false [dailyFile] denvAbort "p/" true
    [] [("p/b", 10)] "p/a" 10 rfl (by simp) (by decide) (by decide)

/-- C7 counterexample: a dry-run invocation can fail.  A download in
dry-run mode still issues the `list_objects_v2` call; when that call
raises a `ClientError` the function returns `False` and the process
exits with code 1. -/
theorem dry_run_failure_cex :
    download_from_s3 denvNoList "p/" false true = false ∧
    exitCode (download_from_s3 denvNoList "p/" false true) = 1 := by
  decide

/-- C7 amended: dry-run suppresses only the transfer calls.  The
metadata calls still run and their failures surface — a dry-run download
whose listing call raises returns `False`, and a dry-run non-forced
upload in which some file's `head_object` raises a non-404 error counts
that file as failed and returns `False` — but the transfer oracles are
never consulted in dry-run mode: the result is unchanged under any
alternative transfer-failure behaviour. -/
theorem dry_run_io_semantics (denv : DownloadEnv) (pfx : String)
    (force : Bool) (hlist : denv.listing = none) (uenv : UploadEnv)
    (ufails2 : String → Bool) (pfx1 : String) (files : List LocalFile)
    (f : LocalFile) (hf : f ∈ files)
    (hhead : uenv.head (s3Key pfx1 f) = HeadResult.err)
    (denv2 : DownloadEnv) (dfails2 : String → Bool) (pfx3 : String)
    (force3 : Bool) (objs : List (String × Int)) :
    download_from_s3 denv pfx force true = false ∧
    upload_to_s3 uenv pfx1 false true files = false ∧
    uploadRun uenv pfx1 force true files =
      uploadRun ⟨uenv.head, ufails2⟩ pfx1 force true files ∧
    downloadLoop denv2 pfx3 force3 true objs =
      downloadLoop ⟨denv2.listing, denv2.localMtime, dfails2⟩ pfx3 force3
        true objs := by
  refine ⟨?_, ?_, ?_, ?_⟩
  · unfold download_from_s3
    rw [hlist]
  · have hpred : (shouldUpload uenv.head false f.mtime (s3Key pfx1 f) &&
        (true || !uenv.uploadFails (s3Key pfx1 f))) = false := by
      have hsu : shouldUpload uenv.head false f.mtime (s3Key pfx1 f) =
          false := by
        unfold shouldUpload
        rw [hhead]
        rfl
      rw [hsu, Bool.false_and]
    unfold upload_to_s3
    rw [uploadRun_snd]
    exact beq_false_of_ne
      (Nat.ne_of_lt (length_filter_lt_of_mem _ files f hf hpred))
  · clear hf
    induction files with
    | nil => rfl
    | cons g rest ih =>
      cases h : shouldUpload uenv.head force g.mtime (s3Key pfx1 g) <;>
        simp [uploadRun, h, ih]
  · induction objs with
    | nil => rfl
    | cons o rest ih =>
      obtain ⟨key, ts⟩ := o
      cases hd : shouldDownload force3
          (denv2.localMtime (localPathFor pfx3 key)) ts <;>
        simp [downloadLoop, hd, ih]

/-- Witness for the amended C7 at a concrete input. -/
theorem dry_run_io_semantics_witness :
    download_from_s3 denvNoList "p/" false true = false ∧
    upload_to_s3 uenvErr "p/" false true [dailyFile] = false ∧
    uploadRun uenvErr "p/" false true [dailyFile] =
      uploadRun ⟨uenvErr.head, fun _ => true⟩ "p/" false true [dailyFile] ∧
    downloadLoop denvOne "p/" false true
        [("clamav/databases/daily.cvd", 100)] =
      downloadLoop ⟨denvOne.listing, denvOne.localMtime, fun _ => true⟩ "p/"
        false true [("clamav/databases/daily.cvd", 100)] :=
  dry_run_io_semantics denvNoList "p/" false rfl uenvErr (fun _ => true)
    "p/" [dailyFile] dailyFile (by decide) rfl denvOne (fun _ => true) "p/"
    false [("clamav/databases/daily.cvd", 100)]

/-- C8 counterexample: the region environment variable does not take
precedence when the bucket environment variable is absent — the loaded
region comes wholesale from the config file. -/
theorem region_env_ignored_cex :
    (load_s3_config none (some "eu-west-1")
        (ConfigFile.valid ⟨some "b", "us-west-2", "p/", true⟩)).region =
      "us-west-2" ∧
    (load_s3_config none (some "eu-west-1")
        (ConfigFile.valid ⟨some "b", "us-west-2", "p/", true⟩)).region ≠
      "eu-west-1" := by
  decide

/-- C8 amended: the bucket environment variable always takes precedence,
and when it is set the region environment variable does too; but when
the bucket environment variable is absent the whole configuration comes
from the config file (or defaults) and the region environment variable
is ignored. -/
theorem config_env_precedence (b r : String) (envRegion : Option String)
    (file file2 : ConfigFile) :
    (load_s3_config (some b) envRegion file).bucket = some b ∧
    (load_s3_config (some b) (some r) file).region = r ∧
    (∀ er er2 : Option String,
      load_s3_config none er file2 = load_s3_config none er2 file2) :=
  ⟨rfl, rfl, fun _ _ => rfl⟩

/-- Witness for the amended C8 at a concrete input. -/
theorem config_env_precedence_witness :
    (load_s3_config (some "bkt") (some "eu-west-1")
      (ConfigFile.valid ⟨some "b", "us-west-2", "p/", true⟩)).bucket =
        some "bkt" ∧
    (load_s3_config (some "bkt") (some "eu-west-1")
      (ConfigFile.valid ⟨some "b", "us-west-2", "p/", true⟩)).region =
        "eu-west-1" ∧
    (∀ er er2 : Option String,
      load_s3_config none er ConfigFile.missing =
        load_s3_config none er2 ConfigFile.missing) :=
  config_env_precedence "bkt" "eu-west-1" (some "eu-west-1")
    (ConfigFile.valid ⟨some "b", "us-west-2", "p/", true⟩)
    ConfigFile.missing

/-- C9: when the bucket-reachability check succeeds and the list-objects
call is denied with `AccessDenied`, the connection test still returns
success and the process exits with code 0. -/
theorem connection_test_list_denied (env : TestEnv)
    (h1 : env.headBucket = CallResult.ok)
    (h2 : env.listObjects = CallResult.accessDenied) :
    test_s3_connection env = true ∧
    exitCode (test_s3_connection env) = 0 := by
  have hres : test_s3_connection env = true := by
    unfold test_s3_connection
    rw [h1, h2]
  exact ⟨hres, by rw [hres]; rfl⟩

/-- Witness for C9 at a concrete input. -/
theorem connection_test_list_denied_witness :
    test_s3_connection ⟨CallResult.ok, CallResult.accessDenied⟩ = true ∧
    exitCode (test_s3_connection ⟨CallResult.ok, CallResult.accessDenied⟩) =
      0 :=
  connection_test_list_denied ⟨CallResult.ok, CallResult.accessDenied⟩ rfl rfl

/-- The head of `dropWhile (= '/')` is never a slash. -/
theorem head_dropWhile_slash (l : List Char) :
    (l.dropWhile (fun c => c = '/')).head? ≠ some '/' := by
  induction l with
  | nil => simp
  | cons c rest ih =>
    by_cases h : c = '/'
    · simpa [List.dropWhile_cons, h] using ih
    · simp [List.dropWhile_cons, h]

/-- C10: `set_s3_pfx` stores the empty string for an empty input and
otherwise the input with its trailing slashes stripped and one slash
appended; the stored value is always either empty or ends with exactly
one trailing slash. -/
theorem set_s3_pfx_spec (p : String) :
    (p = "" → set_s3_pfx p = "") ∧
    (p ≠ "" → set_s3_pfx p = rstripSlash p ++ "/") ∧
    (set_s3_pfx p = "" ∨ endsWithOneSlash (set_s3_pfx p) = true) := by
  refine ⟨fun h => by simp [set_s3_pfx, h],
    fun h => by simp [set_s3_pfx, h], ?_⟩
  by_cases h : p = ""
  · exact Or.inl (by simp [set_s3_pfx, h])
  · refine Or.inr ?_
    simp only [set_s3_pfx, if_neg h]
    unfold endsWithOneSlash
    have hdata : (rstripSlash p ++ "/").data =
        (p.data.reverse.dropWhile (fun c => c = '/')).reverse ++ ['/'] := by
      rw [String.data_append]
      rfl
    rw [hdata, List.reverse_append]
    simp only [List.reverse_cons, List.reverse_nil, List.nil_append,
      List.reverse_reverse]
    show decide
      ((p.data.reverse.dropWhile (fun c => c = '/')).head? ≠ some '/') = true
    exact decide_eq_true (head_dropWhile_slash _)

/-- Witness for C10 at a concrete input. -/
theorem set_s3_pfx_spec_witness :
    set_s3_pfx "ab//" = rstripSlash "ab//" ++ "/" ∧
    endsWithOneSlash (set_s3_pfx "ab//") = true :=
  ⟨(set_s3_pfx_spec "ab//").2.1 (by decide),
    ((set_s3_pfx_spec "ab//").2.2).resolve_left (by decide)⟩

end S3Sync
